import Mathlib

set_option maxHeartbeats 1000000

/-!
Shallow embedding of the serverless IMAP retrieval function of the
email-view repository (netlify/functions/getLatestEmail.ts, plus the
concurrent-fetch revision of the same function).  JavaScript numbers are
modelled as `Option Int` with `none` playing the role of NaN, which matters
because `parseInt` of a non-numeric string yields NaN and `Math.min` /
`Math.max` propagate it.  Network and parser effects are oracles supplied
through the `Net` structure; the handler is a pure function of the
environment and those oracles.
-/

namespace EmailView

/-- A JavaScript number as it occurs in this program: an integer or NaN. -/
abbrev JSNum := Option Int

/-- Math.max over two JS numbers: NaN-propagating. -/
def jsMax (a b : JSNum) : JSNum :=
  match a, b with
  | some x, some y => some (max x y)
  | _, _ => none

/-- Math.min over two JS numbers: NaN-propagating. -/
def jsMin (a b : JSNum) : JSNum :=
  match a, b with
  | some x, some y => some (min x y)
  | _, _ => none

/-- ToIntegerOrInfinity as used by Array.prototype.slice: NaN becomes 0. -/
def jsToInt : JSNum → Int
  | none => 0
  | some n => n

/-- Value of the leading decimal digits of a character list; `none` when the
list does not start with a digit (parseInt then returns NaN). -/
def digitsVal (cs : List Char) : Option Nat :=
  let ds := cs.takeWhile Char.isDigit
  if ds.isEmpty then none
  else some (ds.foldl (fun a c => a * 10 + (c.toNat - 48)) 0)

/-- parseInt(s, 10): skip leading whitespace, optional sign, leading digits;
NaN (`none`) when no digits follow. -/
def parseIntBase10 (s : String) : JSNum :=
  let cs := s.data.dropWhile (fun c => c == ' ' || c == '\t' || c == '\n' || c == '\r')
  match cs with
  | '-' :: rest => (digitsVal rest).map (fun n => -(n : Int))
  | '+' :: rest => (digitsVal rest).map (fun n => (n : Int))
  | _ => (digitsVal cs).map (fun n => (n : Int))

/-- The JavaScript idiom `v || d` applied to an optional environment string:
missing or empty strings fall back to the default. -/
def orDefault : Option String → String → String
  | none, d => d
  | some s, d => if s = "" then d else s

/-- The JavaScript idiom `v || undefined` on a string: the empty string is
falsy and becomes undefined. -/
def jsStrOrUndefined : Option String → Option String
  | none => none
  | some s => if s = "" then none else some s

/-- xs.slice(-count) for a JS number count, as in
`results.slice(-actualCount)`: the argument -count goes through
ToIntegerOrInfinity (NaN becomes 0), a negative start counts from the end,
a non-negative start is clamped to the length. -/
def sliceFromNeg (xs : List Nat) (count : JSNum) : List Nat :=
  let rs : Int := -(jsToInt count)
  let len : Int := xs.length
  let start : Int := if rs < 0 then max (len + rs) 0 else min rs len
  xs.drop start.toNat

/-- Relevant process.env variables (absent vs present string). -/
structure Env where
  IMAP_USER : Option String
  IMAP_PASSWORD : Option String
  IMAP_HOST : Option String
  IMAP_PORT : Option String
  IMAP_TLS : Option String
  EMAIL_COUNT : Option String
  NODE_ENV : Option String
deriving DecidableEq

/-- The ImapConfig record built by getImapConfig(). -/
structure ImapConfig where
  user : String
  password : String
  host : String
  port : JSNum
  tls : Bool
deriving DecidableEq

/-- getImapConfig(): environment with defaults, empty strings for the
credentials. -/
def getImapConfig (env : Env) : ImapConfig :=
  { user := orDefault env.IMAP_USER ""
    password := orDefault env.IMAP_PASSWORD ""
    host := orDefault env.IMAP_HOST "imap.gmail.com"
    port := parseIntBase10 (orDefault env.IMAP_PORT "993")
    tls := env.IMAP_TLS != some "false" }

/-- The rejection message used by connectToImap when credentials are empty. -/
def credsNotConfiguredMsg : String :=
  "IMAP credentials not configured. Please set IMAP_USER and IMAP_PASSWORD environment variables."

/-- Message of the empty-mailbox success response. -/
def noEmailsMsg : String := "No emails found in inbox"

/-- Message of the all-fetches-failed error response. -/
def allFetchesFailedMsg : String :=
  "Failed to fetch any emails. This may be due to timeout or connection issues."

/-- Outcome of connectToImap(): rejected before imap.connect() was ever
called (credential check), connected (ready event), or failed after the
connection attempt (error event or the 8s overall timeout). -/
inductive ConnectOutcome where
  | rejectedBeforeConnect (msg : String)
  | connected
  | failed (msg : String)
deriving DecidableEq

/-- Oracles for the external effects of one invocation: connection outcome,
openBox outcome, search outcome, the per-uid fetch (none = that fetch
rejected), the elapsed-milliseconds value read at the k-th control-relevant
Date.now() query, and the parse outcome per buffer (none = dropped). -/
structure Net (β γ : Type) where
  connectResult : Except String Unit
  openInboxResult : Except String Unit
  searchResult : Except String (List Nat)
  fetch : Nat → Option β
  elapsed : Nat → Nat
  parse : β → Option γ

/-- connectToImap(): checks the credentials before any network I/O and only
then consults the network. -/
def connectToImap {β γ : Type} (env : Env) (net : Net β γ) : ConnectOutcome :=
  let config := getImapConfig env
  if config.user = "" ∨ config.password = "" then
    .rejectedBeforeConnect credsNotConfiguredMsg
  else
    match net.connectResult with
    | .ok _ => .connected
    | .error e => .failed e

/-- emailCount = parseInt(process.env.EMAIL_COUNT || '1', 10). -/
def emailCount (envEmailCount : Option String) : JSNum :=
  parseIntBase10 (orDefault envEmailCount "1")

/-- maxEmails = Math.min(Math.max(1, emailCount), 1) in the current revision
(getLatestEmail.ts line 189, temporarily limited to 1). -/
def maxEmails (envEmailCount : Option String) : JSNum :=
  jsMin (jsMax (some 1) (emailCount envEmailCount)) (some 1)

/-- maxEmails = Math.min(Math.max(1, emailCount), 50) in the earlier
revisions (unnamed part_000 and part_001). -/
def maxEmailsRev (envEmailCount : Option String) : JSNum :=
  jsMin (jsMax (some 1) (emailCount envEmailCount)) (some 50)

/-- uidsToFetch = results.slice(-Math.min(maxEmails, results.length)). -/
def uidsToFetch (maxE : JSNum) (results : List Nat) : List Nat :=
  sliceFromNeg results (jsMin maxE (some results.length))

/-- The inner loop of the sequential time-boxed fetchMultipleEmails of the
current revision: for each remaining uid, read the elapsed time (query k),
stop when it exceeds the budget, otherwise fetch and skip failures. -/
def fetchRest {β : Type} (fetch : Nat → Option β) (elapsed : Nat → Nat) (maxTime : Nat) :
    Nat → List Nat → List β
  | _, [] => []
  | k, uid :: rest =>
    if elapsed k > maxTime then []
    else
      match fetch uid with
      | some buf => buf :: fetchRest fetch elapsed maxTime (k + 1) rest
      | none => fetchRest fetch elapsed maxTime (k + 1) rest

/-- fetchMultipleEmails of the current revision (getLatestEmail.ts lines
125-175): fetch the newest uid first, returning empty when the time budget
is already exceeded or the first fetch fails; then, when more uids remain
and time permits, fetch the rest newest-to-oldest, skipping failures. -/
def fetchMultipleEmails {β : Type} (fetch : Nat → Option β) (uids : List Nat)
    (elapsed : Nat → Nat) (maxTime : Nat) : List β :=
  match uids.getLast? with
  | none => []
  | some latestUid =>
    if elapsed 0 > maxTime then []
    else
      match fetch latestUid with
      | none => []
      | some firstBuffer =>
        if 1 < uids.length ∧ elapsed 1 < maxTime then
          firstBuffer :: fetchRest fetch elapsed maxTime 2 (uids.dropLast.reverse)
        else [firstBuffer]

/-- One entry of the concurrent revision's result array:
{ index, buffer, success }. -/
structure FetchResult (β : Type) where
  index : Nat
  buffer : Option β
  success : Bool
deriving DecidableEq

/-- Promise.all result list of the concurrent revision: each uid mapped to
its fetch outcome, tagged with its original index, in input order. -/
def concFetchResults {β : Type} (fetch : Nat → Option β) : Nat → List Nat → List (FetchResult β)
  | _, [] => []
  | i, uid :: rest =>
    (match fetch uid with
     | some buf => { index := i, buffer := some buf, success := true }
     | none => { index := i, buffer := none, success := false }) ::
      concFetchResults fetch (i + 1) rest

/-- Insertion into a list kept sorted by index (the .sort comparator
(a, b) => a.index - b.index of the concurrent revision). -/
def insertByIndex {β : Type} (x : FetchResult β) : List (FetchResult β) → List (FetchResult β)
  | [] => [x]
  | y :: ys => if x.index ≤ y.index then x :: y :: ys else y :: insertByIndex x ys

/-- Sorting by index (the .sort call of the concurrent revision). -/
def sortByIndex {β : Type} : List (FetchResult β) → List (FetchResult β)
  | [] => []
  | x :: xs => insertByIndex x (sortByIndex xs)

/-- fetchMultipleEmails of the concurrent revision (unnamed part_001 lines
113-136): all fetches issued, each independently fail-tolerant, results
sorted back into original order, failures filtered out. -/
def fetchMultipleEmailsConc {β : Type} (fetch : Nat → Option β) (uids : List Nat) : List β :=
  if uids.isEmpty then []
  else
    ((sortByIndex (concFetchResults fetch 0 uids)).filter
        (fun r => r.success && r.buffer.isSome)).filterMap (fun r => r.buffer)

/-- Output of the external simpleParser collaborator, as consumed by
parseEmail: every field the code reads, optional where the source applies a
falsy-default. -/
structure SimpleParsed where
  subject : Option String
  fromText : Option String
  toText : Option String
  dateIso : Option String
  text : Option String
  html : Option String
  attachments : Option (List (Option String × Option String))
deriving DecidableEq

/-- The structured email object built by parseEmail. -/
structure EmailOut where
  subject : String
  fromAddr : String
  toAddr : String
  date : String
  text : Option String
  html : Option String
  attachments : Option (List (String × String))
deriving DecidableEq

/-- maxContentLength = 50000 (getLatestEmail.ts line 251). -/
def maxContentLength : Nat := 50000

/-- The body-cap of parseEmail: bodies longer than maxContentLength are cut
to maxContentLength characters and the truncation marker is appended. -/
def truncateContent (s : String) : String :=
  if s.length > maxContentLength then s.take maxContentLength ++ "... (truncated)" else s

/-- parseEmail of the current revision (getLatestEmail.ts lines 247-278):
none when simpleParser threw (the message is dropped, not fatal), otherwise
the structured email with falsy-defaults and capped bodies.  The `now`
argument is new Date().toISOString(). -/
def parseEmail (parsed : Option SimpleParsed) (now : String) : Option EmailOut :=
  match parsed with
  | none => none
  | some p =>
    let text := p.text.map truncateContent
    let html := p.html.map truncateContent
    some
      { subject := orDefault p.subject "(No Subject)"
        fromAddr := orDefault p.fromText "Unknown"
        toAddr := orDefault p.toText "Unknown"
        date := orDefault p.dateIso now
        text := jsStrOrUndefined text
        html := jsStrOrUndefined html
        attachments := p.attachments.map (List.map (fun a =>
          (orDefault a.1 "unnamed", orDefault a.2 "application/octet-stream"))) }

/-- A JSON value, for the response bodies built by JSON.stringify. -/
inductive Json where
  | str : String → Json
  | num : Int → Json
  | bool : Bool → Json
  | null : Json
  | arr : List Json → Json
  | obj : List (String × Json) → Json

/-- Shape of a response body: { emails, count }, { emails: [], message },
or { message, error? }. -/
inductive BodyShape (γ : Type) where
  | success (emails : List γ) (count : Nat)
  | emptySuccess (message : String)
  | failure (message : String) (errorDetail : Option String)
deriving DecidableEq

/-- The JSON object a body shape serializes to. -/
def bodyToJson {γ : Type} (enc : γ → Json) : BodyShape γ → Json
  | .success emails count => .obj [("emails", .arr (emails.map enc)), ("count", .num count)]
  | .emptySuccess msg => .obj [("emails", .arr []), ("message", .str msg)]
  | .failure msg detail =>
      .obj (("message", .str msg) ::
        (match detail with
         | some d => [("error", .str d)]
         | none => []))

/-- An HTTP response of the handler. -/
structure HttpResponse (γ : Type) where
  statusCode : Nat
  headers : List (String × String)
  body : BodyShape γ
deriving DecidableEq

/-- The headers attached to every response of the handler. -/
def stdHeaders : List (String × String) :=
  [("Content-Type", "application/json"), ("Access-Control-Allow-Origin", "*")]

/-- Body of the catch-all error response: { message, error? } with the raw
detail only attached in development. -/
def errorBody {γ : Type} (env : Env) (msg : String) : BodyShape γ :=
  .failure msg (if env.NODE_ENV == some "development" then some msg else none)

/-- Result of one handler invocation: the response plus the observable
session facts (whether imap.connect() was attempted, whether a connection
was established, whether imap.end() was called before returning). -/
structure HandlerResult (γ : Type) where
  response : HttpResponse γ
  connectAttempted : Bool
  connected : Bool
  endCalled : Bool
deriving DecidableEq

/-- The handler of the current revision (getLatestEmail.ts lines 177-338):
connect, open inbox, search, short-circuit on an empty mailbox, select the
newest uids, fetch them with the sequential time-boxed strategy, 500 when no
buffer was retrieved, otherwise parse (dropping failures), reverse, respond;
every rejection lands in the catch that closes the connection when one
exists and returns a 500 with the error message. -/
def handler {β γ : Type} (env : Env) (net : Net β γ) : HandlerResult γ :=
  match connectToImap env net with
  | .rejectedBeforeConnect msg =>
      { response := { statusCode := 500, headers := stdHeaders, body := errorBody env msg }
        connectAttempted := false, connected := false, endCalled := false }
  | .failed msg =>
      { response := { statusCode := 500, headers := stdHeaders, body := errorBody env msg }
        connectAttempted := true, connected := false, endCalled := false }
  | .connected =>
      match net.openInboxResult with
      | .error msg =>
          { response := { statusCode := 500, headers := stdHeaders, body := errorBody env msg }
            connectAttempted := true, connected := true, endCalled := true }
      | .ok _ =>
          match net.searchResult with
          | .error msg =>
              { response := { statusCode := 500, headers := stdHeaders, body := errorBody env msg }
                connectAttempted := true, connected := true, endCalled := true }
          | .ok results =>
              if results.length = 0 then
                { response := { statusCode := 200, headers := stdHeaders,
                                body := .emptySuccess noEmailsMsg }
                  connectAttempted := true, connected := true, endCalled := true }
              else
                let uids := uidsToFetch (maxEmails env.EMAIL_COUNT) results
                let emailBuffers := fetchMultipleEmails net.fetch uids net.elapsed 8000
                if emailBuffers.length = 0 then
                  { response := { statusCode := 500, headers := stdHeaders,
                                  body := .failure allFetchesFailedMsg none }
                    connectAttempted := true, connected := true, endCalled := true }
                else
                  let emails := emailBuffers.filterMap net.parse
                  let emailsReversed := emails.reverse
                  { response := { statusCode := 200, headers := stdHeaders,
                                  body := .success emailsReversed emailsReversed.length }
                    connectAttempted := true, connected := true, endCalled := true }

/-- Strictly newest-first: each identifier strictly greater than the next. -/
def strictlyDescending : List Nat → Bool
  | [] => true
  | [_] => true
  | a :: b :: t => decide (b < a) && strictlyDescending (b :: t)

/-! ## Concrete worlds used by counterexamples and witnesses -/

/-- A network oracle where everything succeeds instantly; buffers and parsed
emails are tagged with the uid they were fetched for, so the identifier
order of the final envelope can be read off. -/
def okNet (results : List Nat) : Net Nat Nat :=
  { connectResult := .ok (), openInboxResult := .ok (), searchResult := .ok results,
    fetch := fun u => some u, elapsed := fun _ => 0, parse := fun b => some b }

/-- An environment with valid credentials and defaults everywhere else. -/
def baseEnv : Env :=
  { IMAP_USER := some "user", IMAP_PASSWORD := some "pw", IMAP_HOST := none,
    IMAP_PORT := none, IMAP_TLS := none, EMAIL_COUNT := none, NODE_ENV := none }

/-- baseEnv with a non-numeric EMAIL_COUNT. -/
def nanCountEnv : Env := { baseEnv with EMAIL_COUNT := some "abc" }

/-- baseEnv with the IMAP user absent. -/
def noCredsEnv : Env := { baseEnv with IMAP_USER := none }

/-- A network oracle where the search finds one message and every fetch
fails. -/
def allFailNet : Net Nat Nat := { okNet [5] with fetch := fun _ => none }

/-- A fetch oracle that fails exactly on uid 3. -/
def c6fetch : Nat → Option Nat := fun u => if u = 3 then none else some u

/-- A plaintext body of 50001 characters, one over the cap. -/
def bigBody : String := String.mk (List.replicate 50001 'a')

/-- A simpleParser output whose plaintext body is one character over the
cap. -/
def bigMail : SimpleParsed :=
  { subject := some "s", fromText := some "f", toText := some "t",
    dateIso := some "2024-01-01T00:00:00.000Z", text := some bigBody, html := none,
    attachments := none }

/-- A simpleParser output with a short plaintext body. -/
def smallMail : SimpleParsed :=
  { subject := some "s", fromText := some "f", toText := some "t",
    dateIso := some "2024-01-01T00:00:00.000Z", text := some "hello", html := none,
    attachments := none }

/-! ## Helper lemmas -/

theorem parseIntBase10_empty : parseIntBase10 "" = none := rfl

theorem orDefault_some_ne (s d : String) (h : s ≠ "") : orDefault (some s) d = s := by
  simp [orDefault, h]

theorem drop_length_sub_one {α : Type} :
    ∀ (l : List α) (h : l ≠ []), l.drop (l.length - 1) = [l.getLast h]
  | [x], _ => rfl
  | x :: y :: t, _ => by
    have ih := drop_length_sub_one (y :: t) (by simp)
    have hlen : (x :: y :: t).length - 1 = ((y :: t).length - 1) + 1 := by
      simp [List.length_cons]
    have hgl : (x :: y :: t).getLast (by simp) = (y :: t).getLast (by simp) :=
      List.getLast_cons (by simp)
    rw [hlen, List.drop_succ_cons, ih, hgl]

theorem fetchRest_no_timeout {β : Type} (fetch : Nat → Option β) (elapsed : Nat → Nat)
    (maxTime : Nat) (h : ∀ k, elapsed k < maxTime) :
    ∀ (l : List Nat) (k : Nat), fetchRest fetch elapsed maxTime k l = l.filterMap fetch := by
  intro l
  induction l with
  | nil => intro k; rfl
  | cons u rest ih =>
    intro k
    rw [fetchRest]
    rw [if_neg (by exact Nat.not_lt.mpr (Nat.le_of_lt (h k)))]
    cases hfu : fetch u with
    | none => simp [hfu, ih]
    | some b => simp [hfu, ih]

/-- The sequential time-boxed strategy, when no time bound fires and the
newest fetch succeeds, yields the newest buffer followed by the remaining
uids newest-to-oldest with failures skipped. -/
theorem fetchMultipleEmails_no_timeout {β : Type} (fetch : Nat → Option β) (uids : List Nat)
    (b : β) (elapsed : Nat → Nat) (maxTime : Nat) (htime : ∀ k, elapsed k < maxTime)
    (hne : uids ≠ []) (hb : fetch (uids.getLast hne) = some b) :
    fetchMultipleEmails fetch uids elapsed maxTime =
      b :: (uids.dropLast.reverse.filterMap fetch) := by
  rw [fetchMultipleEmails]
  split
  next hnone =>
    rw [List.getLast?_eq_getLast uids hne] at hnone
    exact Option.noConfusion hnone
  next latest hlatest =>
    rw [List.getLast?_eq_getLast uids hne] at hlatest
    have hl : latest = uids.getLast hne := (Option.some.injEq _ _).mp hlatest.symm
    rw [if_neg (by exact Nat.not_lt.mpr (Nat.le_of_lt (htime 0))), hl, hb]
    show (if 1 < uids.length ∧ elapsed 1 < maxTime then
        b :: fetchRest fetch elapsed maxTime 2 uids.dropLast.reverse
      else [b]) = b :: List.filterMap fetch uids.dropLast.reverse
    by_cases hlen : 1 < uids.length
    · rw [if_pos ⟨hlen, htime 1⟩, fetchRest_no_timeout fetch elapsed maxTime htime]
    · rw [if_neg (by intro hc; exact hlen hc.1)]
      have hdl : uids.dropLast = [] := by
        cases uids with
        | nil => rfl
        | cons x t =>
          cases t with
          | nil => rfl
          | cons y s => exact absurd (by simp [List.length_cons]) hlen
      simp [hdl]

/-- When every fetch fails, the sequential time-boxed strategy returns no
buffers. -/
theorem fetchMultipleEmails_all_fail {β : Type} (fetch : Nat → Option β) (uids : List Nat)
    (elapsed : Nat → Nat) (maxTime : Nat) (hfail : ∀ u ∈ uids, fetch u = none) :
    fetchMultipleEmails fetch uids elapsed maxTime = [] := by
  rw [fetchMultipleEmails]
  split
  next => rfl
  next latest hlast =>
    have hmem : latest ∈ uids := by
      obtain ⟨hne2, hx⟩ := List.mem_getLast?_eq_getLast (l := uids) (x := latest) hlast
      rw [hx]
      exact List.getLast_mem hne2
    by_cases ht : elapsed 0 > maxTime
    · rw [if_pos ht]
    · rw [if_neg ht, hfail latest hmem]

theorem concFetchResults_index_ge {β : Type} (fetch : Nat → Option β) :
    ∀ (uids : List Nat) (i : Nat), ∀ r ∈ concFetchResults fetch i uids, i ≤ r.index := by
  intro uids
  induction uids with
  | nil => intro i r hr; simp [concFetchResults] at hr
  | cons u us ih =>
    intro i r hr
    rw [concFetchResults] at hr
    rcases List.mem_cons.mp hr with h | h
    · cases hfu : fetch u <;> rw [hfu] at h <;> simp [h]
    · exact Nat.le_of_succ_le (ih (i + 1) r h)

theorem concFetchResults_chain {β : Type} (fetch : Nat → Option β) :
    ∀ (uids : List Nat) (i : Nat),
      List.Chain' (fun a b : FetchResult β => a.index ≤ b.index)
        (concFetchResults fetch i uids) := by
  intro uids
  induction uids with
  | nil => intro i; simp [concFetchResults]
  | cons u us ih =>
    intro i
    rw [concFetchResults]
    refine List.chain'_cons'.mpr ⟨?_, ih (i + 1)⟩
    intro y hy
    have hmem : y ∈ concFetchResults fetch (i + 1) us := List.mem_of_mem_head? hy
    have hge := concFetchResults_index_ge fetch us (i + 1) y hmem
    cases hfu : fetch u <;> exact Nat.le_of_succ_le hge

theorem sortByIndex_sorted_id {β : Type} :
    ∀ (l : List (FetchResult β)),
      List.Chain' (fun a b : FetchResult β => a.index ≤ b.index) l → sortByIndex l = l := by
  intro l
  induction l with
  | nil => intro _; rfl
  | cons x xs ih =>
    intro h
    rw [sortByIndex, ih h.tail]
    cases xs with
    | nil => rfl
    | cons y ys =>
      have hxy : x.index ≤ y.index := (List.chain'_cons.mp h).1
      rw [insertByIndex, if_pos hxy]

theorem conc_filter_filterMap {β : Type} (fetch : Nat → Option β) :
    ∀ (uids : List Nat) (i : Nat),
      ((concFetchResults fetch i uids).filter (fun r => r.success && r.buffer.isSome)).filterMap
        (fun r => r.buffer) = uids.filterMap fetch := by
  intro uids
  induction uids with
  | nil => intro i; rfl
  | cons u us ih =>
    intro i
    rw [concFetchResults]
    cases hfu : fetch u with
    | none => simp [hfu, List.filter_cons, List.filterMap_cons, ih]
    | some b => simp [hfu, List.filter_cons, List.filterMap_cons, ih]

/-- The concurrent strategy returns exactly the successful fetches in the
original uid order. -/
theorem fetchMultipleEmailsConc_eq_filterMap {β : Type} (fetch : Nat → Option β)
    (uids : List Nat) : fetchMultipleEmailsConc fetch uids = uids.filterMap fetch := by
  rw [fetchMultipleEmailsConc]
  by_cases he : uids.isEmpty
  · rw [if_pos he]
    cases uids with
    | nil => rfl
    | cons u us => simp at he
  · rw [if_neg he]
    rw [sortByIndex_sorted_id _ (concFetchResults_chain fetch uids 0)]
    exact conc_filter_filterMap fetch uids 0

/-! ## Claims -/

/-- C1 counterexample: with requested count 3 (in [1,50]) and a mailbox of
five identifiers, the current handler selects only the single newest
identifier, not the last min(3,5) = 3 entries the claim demands. -/
theorem c1_counterexample :
    uidsToFetch (maxEmails (some "3")) [10, 11, 12, 13, 14] = [14] ∧
    uidsToFetch (maxEmails (some "3")) [10, 11, 12, 13, 14] ≠ [12, 13, 14] := by
  decide

/-- C1 (amended): for every numerically-parsed requested count c in [1,50]
and non-empty identifier list, the current revision caps the count at 1 and
selects exactly the single last (newest) identifier, while the earlier
revisions with the [1,50] clamp select exactly the last min(c, m)
identifiers of the ascending list. -/
theorem c1_selection (s : String) (c : Int) (hs : parseIntBase10 s = some c)
    (h1 : 1 ≤ c) (h50 : c ≤ 50) (results : List Nat) (hm : results ≠ []) :
    uidsToFetch (maxEmails (some s)) results = [results.getLast hm] ∧
    uidsToFetch (maxEmailsRev (some s)) results =
      results.drop (results.length - c.toNat) ∧
    (uidsToFetch (maxEmailsRev (some s)) results).length = min c.toNat results.length := by
  have hsne : s ≠ "" := by
    intro he; rw [he, parseIntBase10_empty] at hs; exact Option.noConfusion hs
  have hcount : emailCount (some s) = some c := by
    rw [emailCount, orDefault_some_ne s "1" hsne, hs]
  have hlen : 1 ≤ results.length := by
    cases results with
    | nil => exact absurd rfl hm
    | cons x t => simp
  have hmax : maxEmails (some s) = some 1 := by
    rw [maxEmails, hcount]
    simp [jsMax, jsMin]
  have hmaxRev : maxEmailsRev (some s) = some c := by
    rw [maxEmailsRev, hcount]
    simp [jsMax, jsMin]
    omega
  refine ⟨?_, ?_, ?_⟩
  · rw [hmax, uidsToFetch, jsMin]
    have hmin : min 1 (results.length : Int) = 1 := by omega
    rw [sliceFromNeg]
    simp only [jsToInt, hmin]
    rw [if_pos (by omega)]
    have hstart : (max ((results.length : Int) + -1) 0).toNat = results.length - 1 := by
      omega
    rw [hstart]
    exact drop_length_sub_one results hm
  · rw [hmaxRev, uidsToFetch, jsMin, sliceFromNeg]
    simp only [jsToInt]
    rw [if_pos (by omega)]
    congr 1
    omega
  · rw [hmaxRev, uidsToFetch, jsMin, sliceFromNeg]
    simp only [jsToInt]
    rw [if_pos (by omega), List.length_drop]
    omega

/-- C1 witness: the amended claim instantiated at count 3 and mailbox
[10, 11, 12, 13, 14]. -/
theorem c1_selection_witness :
    uidsToFetch (maxEmails (some "3")) [10, 11, 12, 13, 14] = [14] ∧
    uidsToFetch (maxEmailsRev (some "3")) [10, 11, 12, 13, 14] = [12, 13, 14] ∧
    (uidsToFetch (maxEmailsRev (some "3")) [10, 11, 12, 13, 14]).length = 3 := by
  have h := c1_selection "3" 3 (by decide) (by decide) (by decide)
    [10, 11, 12, 13, 14] (by decide)
  exact ⟨h.1, h.2.1.trans (by decide), h.2.2.trans (by decide)⟩

/-- C2 fails on the code: with a non-numeric EMAIL_COUNT (parseInt yields
NaN, which escapes the clamp and makes slice select the whole mailbox), a
mailbox [12, 13, 14] and every fetch and parse succeeding, the invocation
succeeds (200) but the emails list is [12, 13, 14], oldest first: the
sequential time-boxed strategy already returns buffers newest-first, so the
final reverse produces ascending identifiers, not the claimed strictly
newest-first order. -/
theorem c2_failing_evaluation :
    (handler nanCountEnv (okNet [12, 13, 14])).response.statusCode = 200 ∧
    (handler nanCountEnv (okNet [12, 13, 14])).response.body =
      .success [12, 13, 14] 3 ∧
    strictlyDescending [12, 13, 14] = false := by
  refine ⟨rfl, by decide, by decide⟩

/-- C3: whenever the connection, inbox and search succeed, the search finds
a non-empty identifier list, and every fetch of the selected identifiers
fails, the handler responds 500 with the non-empty all-fetches-failed
message, never a success-shaped envelope. -/
theorem c3_all_fetches_fail_is_error {β γ : Type} (env : Env) (net : Net β γ)
    (results : List Nat)
    (hc : connectToImap env net = .connected)
    (ho : net.openInboxResult = .ok ())
    (hs : net.searchResult = .ok results)
    (hm : results ≠ [])
    (hfail : ∀ u ∈ uidsToFetch (maxEmails env.EMAIL_COUNT) results, net.fetch u = none) :
    (handler env net).response.statusCode = 500 ∧
    (handler env net).response.body = .failure allFetchesFailedMsg none ∧
    allFetchesFailedMsg ≠ "" := by
  have hbuf : fetchMultipleEmails net.fetch (uidsToFetch (maxEmails env.EMAIL_COUNT) results)
      net.elapsed 8000 = [] :=
    fetchMultipleEmails_all_fail _ _ _ _ hfail
  have hlen0 : ¬ results.length = 0 := by
    cases results with
    | nil => exact absurd rfl hm
    | cons x t => simp
  refine ⟨?_, ?_, by decide⟩ <;>
    simp only [handler, hc, ho, hs, hbuf, hlen0, if_false, List.length_nil, if_true]

/-- C3 witness: a one-message mailbox where the only fetch fails. -/
theorem c3_witness :
    (handler baseEnv allFailNet).response.statusCode = 500 ∧
    (handler baseEnv allFailNet).response.body =
      BodyShape.failure allFetchesFailedMsg none ∧
    allFetchesFailedMsg ≠ "" := by
  exact c3_all_fetches_fail_is_error baseEnv allFailNet [5] (by rfl) (by rfl) (by rfl)
    (by decide) (by intro u hu; rfl)

/-- C4: whenever the connection, inbox and search succeed and the search
returns the empty identifier list, the handler responds 200 with an empty
emails list and the non-empty explanatory message, it is not an error, and
no fetch is attempted: the result does not depend on the fetch oracle at
all. -/
theorem c4_empty_mailbox_success {β γ : Type} (env : Env) (net : Net β γ)
    (hc : connectToImap env net = .connected)
    (ho : net.openInboxResult = .ok ())
    (hs : net.searchResult = .ok []) :
    (handler env net).response.statusCode = 200 ∧
    (handler env net).response.body = .emptySuccess noEmailsMsg ∧
    noEmailsMsg ≠ "" ∧
    (∀ enc : γ → Json, bodyToJson enc (handler env net).response.body =
      Json.obj [("emails", Json.arr []), ("message", Json.str noEmailsMsg)]) ∧
    (∀ f : Nat → Option β, handler env { net with fetch := f } = handler env net) := by
  have key : ∀ f : Nat → Option β, handler env { net with fetch := f } =
      { response := { statusCode := 200, headers := stdHeaders,
                      body := .emptySuccess noEmailsMsg }
        connectAttempted := true, connected := true, endCalled := true } := by
    intro f
    set net' : Net β γ := { net with fetch := f } with hdef
    have hc' : connectToImap env net' = .connected := hc
    have ho' : net'.openInboxResult = .ok () := ho
    have hs' : net'.searchResult = .ok [] := hs
    simp only [handler, hc', ho', hs', ho, hs, List.length_nil, if_true]
  have hnet : handler env net =
      { response := { statusCode := 200, headers := stdHeaders,
                      body := .emptySuccess noEmailsMsg }
        connectAttempted := true, connected := true, endCalled := true } := by
    simp only [handler, hc, ho, hs, List.length_nil, if_true]
  refine ⟨by rw [hnet], by rw [hnet], by decide, ?_, ?_⟩
  · intro enc; rw [hnet]; rfl
  · intro f; rw [key f, hnet]

/-- C4 witness: the empty mailbox under the all-succeeding oracle. -/
theorem c4_witness :
    (handler baseEnv (okNet [])).response.statusCode = 200 ∧
    (handler baseEnv (okNet [])).response.body = BodyShape.emptySuccess noEmailsMsg ∧
    noEmailsMsg ≠ "" ∧
    (∀ enc : Nat → Json, bodyToJson enc (handler baseEnv (okNet [])).response.body =
      Json.obj [("emails", Json.arr []), ("message", Json.str noEmailsMsg)]) ∧
    (∀ f : Nat → Option Nat,
      handler baseEnv { okNet [] with fetch := f } = handler baseEnv (okNet [])) := by
  exact c4_empty_mailbox_success baseEnv (okNet []) (by rfl) (by rfl) (by rfl)

/-- C5: when the configured user or password is the empty string, the
handler responds 500 with the credentials message, which contains "not
configured"; imap.connect() is never attempted and the outcome does not
depend on any network oracle. -/
theorem c5_empty_credentials {β γ : Type} (env : Env) (net : Net β γ)
    (h : (getImapConfig env).user = "" ∨ (getImapConfig env).password = "") :
    (handler env net).response.statusCode = 500 ∧
    (∃ d, (handler env net).response.body = .failure credsNotConfiguredMsg d) ∧
    (∃ pre post, credsNotConfiguredMsg = pre ++ "not configured" ++ post) ∧
    (handler env net).connectAttempted = false ∧
    (∀ net2 : Net β γ, handler env net2 = handler env net) := by
  have key : ∀ net2 : Net β γ, handler env net2 =
      { response := { statusCode := 500, headers := stdHeaders,
                      body := errorBody env credsNotConfiguredMsg }
        connectAttempted := false, connected := false, endCalled := false } := by
    intro net2
    have hc : connectToImap env net2 = .rejectedBeforeConnect credsNotConfiguredMsg := by
      simp only [connectToImap]
      rw [if_pos h]
    simp only [handler, hc]
  refine ⟨by rw [key net], ?_, ?_, by rw [key net], fun net2 => by rw [key net2, key net]⟩
  · rw [key net]; exact ⟨_, rfl⟩
  · exact ⟨"IMAP credentials ",
      ". Please set IMAP_USER and IMAP_PASSWORD environment variables.", by decide⟩

/-- C5 witness: IMAP_USER absent, all network oracles willing. -/
theorem c5_witness :
    (handler noCredsEnv (okNet [1])).response.statusCode = 500 ∧
    (∃ d, (handler noCredsEnv (okNet [1])).response.body =
      BodyShape.failure credsNotConfiguredMsg d) ∧
    (∃ pre post, credsNotConfiguredMsg = pre ++ "not configured" ++ post) ∧
    (handler noCredsEnv (okNet [1])).connectAttempted = false ∧
    (∀ net2 : Net Nat Nat, handler noCredsEnv net2 = handler noCredsEnv (okNet [1])) :=
  c5_empty_credentials noCredsEnv (okNet [1]) (Or.inl rfl)

/-- C6 counterexample: in the sequential time-boxed strategy the failure of
the single fetch of uid 3 (the newest) aborts the whole retrieval: the
result is empty even though the fetches of uids 2 and 1 would have
succeeded. -/
theorem c6_counterexample :
    fetchMultipleEmails c6fetch [1, 2, 3] (fun _ => 0) 8000 = [] ∧
    c6fetch 2 = some 2 ∧ c6fetch 1 = some 1 := by decide

/-- C6 (amended): in the concurrent strategy no single fetch failure ever
aborts the others (the result is exactly the successful fetches in request
order); in the sequential time-boxed strategy the same holds for every
identifier other than the newest, provided the newest fetch succeeds — a
failure of the newest fetch instead aborts the remaining identifiers. -/
theorem c6_failure_tolerance :
    (∀ (β : Type) (fetch : Nat → Option β) (uids : List Nat),
        fetchMultipleEmailsConc fetch uids = uids.filterMap fetch) ∧
    (∀ (β : Type) (fetch : Nat → Option β) (uids : List Nat) (b : β)
        (elapsed : Nat → Nat) (maxTime : Nat),
        (∀ k, elapsed k < maxTime) → ∀ hne : uids ≠ [],
        fetch (uids.getLast hne) = some b →
        fetchMultipleEmails fetch uids elapsed maxTime =
          b :: uids.dropLast.reverse.filterMap fetch) :=
  ⟨fun _ fetch uids => fetchMultipleEmailsConc_eq_filterMap fetch uids,
   fun _ fetch uids b elapsed maxTime htime hne hb =>
     fetchMultipleEmails_no_timeout fetch uids b elapsed maxTime htime hne hb⟩

/-- C6 witness: the concurrent strategy drops the failed uid 3 and keeps
uids 1 and 2; the sequential strategy with all fetches succeeding returns
newest-to-oldest. -/
theorem c6_failure_tolerance_witness :
    fetchMultipleEmailsConc c6fetch [1, 2, 3] = [1, 2] ∧
    fetchMultipleEmails (fun u => some u) [1, 2, 3] (fun _ => 0) 8000 = [3, 2, 1] := by
  constructor
  · exact (c6_failure_tolerance.1 Nat c6fetch [1, 2, 3]).trans (by decide)
  · exact (c6_failure_tolerance.2 Nat (fun u => some u) [1, 2, 3] 3 (fun _ => 0) 8000
      (fun _ => (by decide : (0 : Nat) < 8000)) (by decide) rfl).trans (by decide)

/-- C7 fails on the code: a non-numeric EMAIL_COUNT parses to NaN, the
Math.max/Math.min clamp propagates NaN instead of producing 1, and
slice(-NaN) then selects the entire mailbox — with mailbox [1, 2] both
identifiers are selected, and under the [1,50]-clamp revision a 60-message
mailbox yields 60 selected identifiers, outside [1, 50]; only a missing
EMAIL_COUNT defaults to 1. -/
theorem c7_nan_failing_evaluation :
    maxEmails (some "abc") = none ∧
    maxEmailsRev (some "abc") = none ∧
    uidsToFetch (maxEmails (some "abc")) [1, 2] = [1, 2] ∧
    (uidsToFetch (maxEmailsRev (some "abc")) (List.range 60)).length = 60 ∧
    maxEmails none = some 1 := by decide

/-- C8: on every exit path of the handler, if a connection was established
then imap.end() was called before the response was returned. -/
theorem c8_always_closes {β γ : Type} (env : Env) (net : Net β γ)
    (h : (handler env net).connected = true) :
    (handler env net).endCalled = true := by
  revert h
  simp only [handler]
  repeat' split
  all_goals intro h
  all_goals first | rfl | exact h

/-- C8 witness: a successful one-message invocation establishes a
connection and closes it. -/
theorem c8_witness :
    (handler baseEnv (okNet [7])).connected = true ∧
    (handler baseEnv (okNet [7])).endCalled = true :=
  ⟨by decide, c8_always_closes baseEnv (okNet [7]) (by decide)⟩

theorem truncateContent_long (s : String) (h : s.length > maxContentLength) :
    truncateContent s = s.take maxContentLength ++ "... (truncated)" := by
  rw [truncateContent, if_pos h]

theorem truncateContent_short (s : String) (h : ¬ s.length > maxContentLength) :
    truncateContent s = s := by
  rw [truncateContent, if_neg h]

theorem append_marker_ne_empty (s : String) : s ++ "... (truncated)" ≠ "" := by
  intro h
  have hl := congrArg String.length h
  rw [String.length_append] at hl
  have hm : ("... (truncated)" : String).length = 15 := rfl
  have hz : ("" : String).length = 0 := rfl
  omega

/-- The fields of parseEmail on a successfully parsed message: the text and
html fields are the capped bodies with the empty string mapped to
undefined. -/
theorem parseEmail_fields (p : SimpleParsed) (now : String) :
    ∃ e, parseEmail (some p) now = some e ∧
      e.text = jsStrOrUndefined (p.text.map truncateContent) ∧
      e.html = jsStrOrUndefined (p.html.map truncateContent) :=
  ⟨_, rfl, rfl, rfl⟩

/-- C9: parseEmail never rejects a message on account of body length; a
plaintext or HTML body longer than 50000 characters is replaced by its
first 50000 characters with the visible marker appended, and a non-empty
body at or under the cap is returned unchanged. -/
theorem c9_body_cap (p : SimpleParsed) (now : String) :
    (parseEmail (some p) now).isSome = true ∧
    (∀ s, p.text = some s → s.length > maxContentLength →
      ∃ e, parseEmail (some p) now = some e ∧
        e.text = some (s.take maxContentLength ++ "... (truncated)")) ∧
    (∀ s, p.text = some s → s ≠ "" → s.length ≤ maxContentLength →
      ∃ e, parseEmail (some p) now = some e ∧ e.text = some s) ∧
    (∀ s, p.html = some s → s.length > maxContentLength →
      ∃ e, parseEmail (some p) now = some e ∧
        e.html = some (s.take maxContentLength ++ "... (truncated)")) ∧
    (∀ s, p.html = some s → s ≠ "" → s.length ≤ maxContentLength →
      ∃ e, parseEmail (some p) now = some e ∧ e.html = some s) := by
  obtain ⟨e, he, het, heh⟩ := parseEmail_fields p now
  refine ⟨by rw [he]; rfl, ?_, ?_, ?_, ?_⟩
  · intro s hs hlen
    refine ⟨e, he, ?_⟩
    rw [het, hs]
    show jsStrOrUndefined (some (truncateContent s)) = _
    rw [truncateContent_long s hlen, jsStrOrUndefined, if_neg (append_marker_ne_empty _)]
  · intro s hs hne hlen
    refine ⟨e, he, ?_⟩
    rw [het, hs]
    show jsStrOrUndefined (some (truncateContent s)) = _
    rw [truncateContent_short s (by omega), jsStrOrUndefined, if_neg hne]
  · intro s hs hlen
    refine ⟨e, he, ?_⟩
    rw [heh, hs]
    show jsStrOrUndefined (some (truncateContent s)) = _
    rw [truncateContent_long s hlen, jsStrOrUndefined, if_neg (append_marker_ne_empty _)]
  · intro s hs hne hlen
    refine ⟨e, he, ?_⟩
    rw [heh, hs]
    show jsStrOrUndefined (some (truncateContent s)) = _
    rw [truncateContent_short s (by omega), jsStrOrUndefined, if_neg hne]

/-- C9 witness: a 50001-character body is truncated with the marker; the
short body "hello" is returned unchanged. -/
theorem c9_body_cap_witness :
    (∃ e, parseEmail (some bigMail) "2024-01-01T00:00:00.000Z" = some e ∧
      e.text = some (bigBody.take maxContentLength ++ "... (truncated)")) ∧
    (∃ e, parseEmail (some smallMail) "2024-01-01T00:00:00.000Z" = some e ∧
      e.text = some "hello") := by
  constructor
  · refine (c9_body_cap bigMail "2024-01-01T00:00:00.000Z").2.1 bigBody rfl ?_
    have hb : bigBody.length = 50001 := by
      rw [bigBody]
      show (List.replicate 50001 'a').length = 50001
      exact List.length_replicate 50001 'a'
    have hm : maxContentLength = 50000 := rfl
    omega
  · exact (c9_body_cap smallMail "2024-01-01T00:00:00.000Z").2.2.1 "hello" rfl
      (by decide) (by decide)

/-- C10: every response of the handler carries exactly the two standard
headers, Content-Type: application/json and Access-Control-Allow-Origin: *,
and its body serializes to a JSON object. -/
theorem c10_headers_and_json_object {β γ : Type} (env : Env) (net : Net β γ)
    (enc : γ → Json) :
    (handler env net).response.headers = stdHeaders ∧
    ("Content-Type", "application/json") ∈ (handler env net).response.headers ∧
    ("Access-Control-Allow-Origin", "*") ∈ (handler env net).response.headers ∧
    ∃ kvs, bodyToJson enc (handler env net).response.body = Json.obj kvs := by
  have hh : (handler env net).response.headers = stdHeaders := by
    simp only [handler]
    repeat' split
    all_goals rfl
  have hobj : ∃ kvs, bodyToJson enc (handler env net).response.body = Json.obj kvs := by
    cases hb : (handler env net).response.body with
    | success l c => exact ⟨_, rfl⟩
    | emptySuccess m => exact ⟨_, rfl⟩
    | failure m d => exact ⟨_, rfl⟩
  refine ⟨hh, ?_, ?_, hobj⟩ <;> rw [hh] <;> simp [stdHeaders]

end EmailView
